import Mathlib

/-!
# Verification of the flow-builder-core canvas engine

Shallow embedding, in Lean 4, of the state-and-rendering engine of the
flow-builder-core repository (`src/components/FlowCanvas.js` and the
FlowPanel drag negotiator), together with theorems settling the frozen
claims about it.

Modelling conventions:
* JS numbers are modelled as `ℚ` (pixel widths, zoom levels) or `Int`
  (connector indices, which the code compares with `-1` sentinels).
* DOM-derived data (connector badge types read back via
  `dataset.badgeType`) is recomputed from the component state; the code
  re-renders after every state mutation, so the DOM it reads is always in
  sync with the state.
* JS objects keyed by string (`pathHighlights`) are association lists with
  insert-or-replace update, mirroring property-assignment semantics.
-/

namespace FlowBuilder

/-! ## Zoom controller (FlowCanvas zoom state, applyZoom / zoomIn / zoomOut / zoomFit) -/

/-- `Math.min` on two (non-NaN) numbers.  Written with `if` so that closed
instances evaluate inside the kernel. -/
def jsMin (a b : ℚ) : ℚ := if a ≤ b then a else b

/-- `Math.max` on two (non-NaN) numbers. -/
def jsMax (a b : ℚ) : ℚ := if a ≤ b then b else a

lemma jsMin_eq (a b : ℚ) : jsMin a b = min a b := (min_def a b).symm

lemma jsMax_eq (a b : ℚ) : jsMax a b = max a b := by
  rw [jsMax, max_def]

/-- Zoom state of the canvas: `zoomLevel` and `isZoomManuallyChanged`
(FlowCanvas constructor, lines 49-54). -/
structure ZoomState where
  zoomLevel : ℚ
  isZoomManuallyChanged : Bool
deriving DecidableEq, Repr

/-- `this.minZoom = 0.25` -/
def minZoom : ℚ := 1/4

/-- `this.maxZoom = 3` -/
def maxZoom : ℚ := 3

/-- `this.zoomFactor = 1.05` -/
def zoomFactor : ℚ := 21/20

/-- `applyZoom(zoomLevel)`: clamps the requested level into
`[minZoom, maxZoom]` and stores it
(`this.zoomLevel = Math.max(this.minZoom, Math.min(this.maxZoom, zoomLevel))`,
FlowCanvas.js line 2156).  The DOM writes (transform, background dots) carry
no model state. -/
def applyZoom (z : ℚ) (s : ZoomState) : ZoomState :=
  { s with zoomLevel := jsMax minZoom (jsMin maxZoom z) }

/-- `zoomIn()`: sets the manual flag, then applies the current level times
the zoom factor (FlowCanvas.js lines 2183-2186). -/
def zoomIn (s : ZoomState) : ZoomState :=
  applyZoom (s.zoomLevel * zoomFactor) { s with isZoomManuallyChanged := true }

/-- `zoomOut()`: sets the manual flag, then applies the current level divided
by the zoom factor (FlowCanvas.js lines 2188-2191). -/
def zoomOut (s : ZoomState) : ZoomState :=
  applyZoom (s.zoomLevel / zoomFactor) { s with isZoomManuallyChanged := true }

/-- `zoomFit()` (FlowCanvas.js lines 2193-2215).  The branch on
`isZoomManuallyChanged` either resets to level 1 or computes the fit ratio
from the measured viewport (`wrapperRect`) and content (`contentRect`)
rectangles.  The wrapper carries no transform, so `vw`/`vh` are its fixed
pixel size; the content element is the one `applyZoom` scales with
`transform: scale(zoomLevel)`, so `content.getBoundingClientRect()` returns
the intrinsic content size `cw`/`ch` multiplied by the current zoom
level. -/
def zoomFit (vw vh cw ch : ℚ) (s : ZoomState) : ZoomState :=
  if s.isZoomManuallyChanged then
    applyZoom 1 { s with isZoomManuallyChanged := false }
  else
    let scaleX := (vw - 96) / (cw * s.zoomLevel)
    let scaleY := (vh - 96) / (ch * s.zoomLevel)
    let fitZoom := jsMin (jsMin scaleX scaleY) 1
    applyZoom (jsMax minZoom fitZoom) { s with isZoomManuallyChanged := false }

/-- Initial zoom state: `this.zoomLevel = 1`,
`this.isZoomManuallyChanged = false` (constructor). -/
def initZoom : ZoomState := ⟨1, false⟩

/-- A user zoom action, for reasoning about arbitrary action sequences. -/
inductive ZoomOp where
  | zin
  | zout
deriving DecidableEq, Repr

/-- Run a sequence of zoom actions. -/
def runZoomOps (ops : List ZoomOp) (s : ZoomState) : ZoomState :=
  ops.foldl (fun st op => match op with
    | ZoomOp.zin => zoomIn st
    | ZoomOp.zout => zoomOut st) s

lemma applyZoom_mem (z : ℚ) (s : ZoomState) :
    minZoom ≤ (applyZoom z s).zoomLevel ∧ (applyZoom z s).zoomLevel ≤ maxZoom := by
  simp only [applyZoom, jsMax_eq, jsMin_eq]
  refine ⟨le_max_left _ _, ?_⟩
  rw [max_le_iff]
  exact ⟨by norm_num [minZoom, maxZoom], min_le_left _ _⟩

lemma runZoomOps_mem (ops : List ZoomOp) (s : ZoomState)
    (h : minZoom ≤ s.zoomLevel ∧ s.zoomLevel ≤ maxZoom) :
    minZoom ≤ (runZoomOps ops s).zoomLevel ∧ (runZoomOps ops s).zoomLevel ≤ maxZoom := by
  induction ops generalizing s with
  | nil => exact h
  | cons op rest ih =>
    cases op with
    | zin => exact ih _ (applyZoom_mem _ _)
    | zout => exact ih _ (applyZoom_mem _ _)

lemma zoomIn_eq_of_le (s : ZoomState)
    (h1 : minZoom ≤ s.zoomLevel * zoomFactor) (h2 : s.zoomLevel * zoomFactor ≤ maxZoom) :
    zoomIn s = ⟨s.zoomLevel * zoomFactor, true⟩ := by
  simp only [zoomIn, applyZoom, jsMax_eq, jsMin_eq]
  rw [min_eq_right h2, max_eq_right h1]

lemma zoomIn_saturates (s : ZoomState) (h : maxZoom ≤ s.zoomLevel * zoomFactor) :
    zoomIn s = ⟨maxZoom, true⟩ := by
  simp only [zoomIn, applyZoom, jsMax_eq, jsMin_eq]
  rw [min_eq_left h, max_eq_right (by norm_num [minZoom, maxZoom])]

/-- While the product stays at or below `maxZoom`, iterating `zoomIn` from the
initial state multiplies the level by `zoomFactor ^ k` exactly. -/
lemma iterate_zoomIn_level : ∀ k : ℕ, k ≤ 22 →
    (zoomIn^[k] initZoom).zoomLevel = zoomFactor ^ k := by
  intro k
  induction k with
  | zero => intro _; simp [initZoom]
  | succ n ih =>
    intro hn
    have hfle : (zoomFactor : ℚ) ^ (n + 1) ≤ maxZoom := by
      calc zoomFactor ^ (n + 1) ≤ zoomFactor ^ 22 :=
            pow_le_pow_right₀ (by norm_num [zoomFactor]) hn
        _ ≤ maxZoom := by norm_num [zoomFactor, maxZoom]
    have hone : (1 : ℚ) ≤ zoomFactor ^ (n + 1) := one_le_pow₀ (by norm_num [zoomFactor])
    rw [Function.iterate_succ_apply', zoomIn_eq_of_le]
    · rw [ih (by omega), pow_succ]
    · rw [ih (by omega), ← pow_succ]
      calc minZoom ≤ 1 := by norm_num [minZoom]
        _ ≤ _ := hone
    · rw [ih (by omega), ← pow_succ]
      exact hfle

/-- Counterexample to C4 as stated: after 20 consecutive `zoomIn` calls from
level 1 the zoom level is exactly `(21/20)^20 ≈ 2.653`, strictly below 3 —
it has not saturated at 3.0. -/
theorem C4_counterexample :
    (zoomIn^[20] initZoom).zoomLevel = (21/20 : ℚ) ^ 20 ∧ (21/20 : ℚ) ^ 20 < 3 := by
  constructor
  · rw [iterate_zoomIn_level 20 (by omega)]; norm_num [zoomFactor]
  · norm_num

/-- C4 (amended): after any sequence of `zoomIn`/`zoomOut` calls starting from
the initial level 1, the zoom level lies within `[0.25, 3.0]`; 23 (not 20)
consecutive `zoomIn` calls starting from level 1 saturate the level at exactly
3.0, and a further `zoomIn` leaves it at 3.0 (it never exceeds the maximum). -/
theorem C4_zoom_range_and_saturation :
    (∀ ops : List ZoomOp,
        minZoom ≤ (runZoomOps ops initZoom).zoomLevel ∧
        (runZoomOps ops initZoom).zoomLevel ≤ maxZoom)
    ∧ (zoomIn^[23] initZoom).zoomLevel = 3
    ∧ (zoomIn^[24] initZoom).zoomLevel = 3 := by
  have h23 : zoomIn^[23] initZoom = ⟨maxZoom, true⟩ := by
    rw [show (23 : ℕ) = 22 + 1 from rfl, Function.iterate_succ_apply']
    rw [zoomIn_saturates]
    rw [iterate_zoomIn_level 22 (by omega)]
    norm_num [zoomFactor, maxZoom]
  refine ⟨?_, ?_, ?_⟩
  · intro ops
    exact runZoomOps_mem ops initZoom (by norm_num [initZoom, minZoom, maxZoom])
  · rw [h23]; norm_num [maxZoom]
  · rw [show (24 : ℕ) = 23 + 1 from rfl, Function.iterate_succ_apply', h23,
      zoomIn_saturates _ (by norm_num [zoomFactor, maxZoom])]
    norm_num [maxZoom]

/-- Counterexample to C5 as stated: repeated fit calls are NOT idempotent.
The content rectangle `zoomFit` measures carries the `scale(zoomLevel)`
transform of the previous call, so with viewport 1096 and intrinsic content
size 2000 a fit call computes ratio (1096 − 96)/2000 = 0.5, and the next
call measures 2000 × 0.5 = 1000, computes ratio 1, and jumps back to level
1 — consecutive fit calls oscillate between 0.5 and 1 instead of repeating
the same state. -/
theorem C5_counterexample :
    zoomFit 1096 1096 2000 2000 ⟨1, false⟩ = ⟨1/2, false⟩
    ∧ zoomFit 1096 1096 2000 2000 ⟨1/2, false⟩ = ⟨1, false⟩
    ∧ zoomFit 1096 1096 2000 2000 (zoomFit 1096 1096 2000 2000 ⟨1, false⟩) ≠
        zoomFit 1096 1096 2000 2000 ⟨1, false⟩ := by
  have h1 : zoomFit 1096 1096 2000 2000 ⟨1, false⟩ = ⟨1/2, false⟩ := by
    norm_num [zoomFit, applyZoom, jsMin, jsMax, minZoom, maxZoom]
  have h2 : zoomFit 1096 1096 2000 2000 ⟨1/2, false⟩ = ⟨1, false⟩ := by
    norm_num [zoomFit, applyZoom, jsMin, jsMax, minZoom, maxZoom]
  refine ⟨h1, h2, ?_⟩
  rw [h1, h2]
  intro h
  norm_num [ZoomState.mk.injEq] at h

/-- C5 (amended): `zoomFit` toggles.  With `isZoomManuallyChanged` set, it
resets the level to exactly 1.0 and clears the flag (so after a manual
`zoomIn` the first fit call yields level 1); with the flag clear, it
computes the fit ratio from the measured content rectangle — the intrinsic
size scaled by the current level — as
`fit = min((vw − 96)/(cw·level), (vh − 96)/(ch·level), 1)`, clamps it to
the minimum zoom 0.25, applies it and leaves the flag clear.  Repeated fit
calls are NOT idempotent in general (see the counterexample): because the
next call measures the content scaled by the level just set, they are a
fixed point only when the computed ratio is 1, e.g. when the content
already fits the padded viewport at level 1.  `cw, ch > 0` keeps the `ℚ`
divisions faithful to the JS ones. -/
theorem C5_zoomFit_toggle (vw vh cw ch : ℚ) (s : ZoomState)
    (hcw : 0 < cw) (hch : 0 < ch) :
    (zoomFit vw vh cw ch (zoomIn s) = ⟨1, false⟩)
    ∧ (s.isZoomManuallyChanged = true → zoomFit vw vh cw ch s = ⟨1, false⟩)
    ∧ (s.isZoomManuallyChanged = false →
        zoomFit vw vh cw ch s =
          ⟨max minZoom (min (min ((vw - 96) / (cw * s.zoomLevel))
              ((vh - 96) / (ch * s.zoomLevel))) 1), false⟩)
    ∧ (1 ≤ (vw - 96) / cw → 1 ≤ (vh - 96) / ch →
        zoomFit vw vh cw ch ⟨1, false⟩ = ⟨1, false⟩) := by
  have hreset : ∀ t : ZoomState, t.isZoomManuallyChanged = true →
      zoomFit vw vh cw ch t = ⟨1, false⟩ := by
    intro t ht
    simp only [zoomFit, ht, if_true, applyZoom, jsMax_eq, jsMin_eq]
    rw [min_eq_right (by norm_num [maxZoom]), max_eq_right (by norm_num [minZoom])]
  have hfit : ∀ t : ZoomState, t.isZoomManuallyChanged = false →
      zoomFit vw vh cw ch t =
        ⟨max minZoom (min (min ((vw - 96) / (cw * t.zoomLevel))
            ((vh - 96) / (ch * t.zoomLevel))) 1), false⟩ := by
    intro t ht
    simp only [zoomFit, ht, if_false, Bool.false_eq_true, applyZoom, jsMax_eq, jsMin_eq]
    have h1 : min (min ((vw - 96) / (cw * t.zoomLevel))
        ((vh - 96) / (ch * t.zoomLevel))) 1 ≤ (1 : ℚ) := min_le_right _ _
    have h2 : max minZoom (min (min ((vw - 96) / (cw * t.zoomLevel))
        ((vh - 96) / (ch * t.zoomLevel))) 1) ≤ maxZoom := by
      rw [max_le_iff]
      exact ⟨by norm_num [minZoom, maxZoom], h1.trans (by norm_num [maxZoom])⟩
    rw [min_eq_right h2, max_eq_right (le_max_left _ _)]
  refine ⟨hreset _ rfl, hreset s, hfit s, ?_⟩
  intro h1g h2g
  rw [hfit ⟨1, false⟩ rfl]
  dsimp only
  rw [mul_one, mul_one, min_eq_right (le_min h1g h2g),
    max_eq_right (by norm_num [minZoom])]

/-- Witness for C5 (amended) at a concrete input: a manually-zoomed state is
reset to exactly level 1 with the flag cleared. -/
theorem C5_zoomFit_toggle_witness :
    zoomFit 800 600 1000 500 ⟨2, true⟩ = ⟨1, false⟩ :=
  (C5_zoomFit_toggle 800 600 1000 500 ⟨2, true⟩ (by norm_num) (by norm_num)).2.1 rfl

/-! ## Panel width negotiation during drag (FlowPanel.attachDragListener/handleMouseMove)

The `handleMouseMove` closure reads, besides the mouse position, a geometric
environment: the window width, whether the other panel's container has the
`flow-panel-open` class, the other panel's bounding rectangle (left edge and
width) and this panel's left edge.  Those reads are the fields of
`PanelDragEnv`; the mouse-down state (`startX`, `startWidth`) and the event's
`clientX` are explicit arguments. -/

/-- Environment read by `handleMouseMove` from the DOM. -/
structure PanelDragEnv where
  windowInnerWidth : ℚ
  otherOpen : Bool
  otherLeft : ℚ
  otherWidth : ℚ
  thisLeft : ℚ
deriving DecidableEq, Repr

/-- Result of one `handleMouseMove` step: the width written to the dragged
panel, and the width written to the other panel when it was shrunk (`none`
when the other panel was left untouched). -/
structure DragMoveResult where
  newWidth : ℚ
  otherNewWidth : Option ℚ
deriving DecidableEq, Repr

/-- `minWidth = 400` (FlowPanel.js line 175). -/
def panelMinWidth : ℚ := 400

/-- `gapBetweenPanels = 100` (FlowPanel.js line 176). -/
def gapBetweenPanels : ℚ := 100

/-- One step of the drag handler `handleMouseMove` (FlowPanel.js lines
201-284).  `pos` is `this.config.position` (`"left"` or `"right"`).  The
candidate width is `startWidth ± (clientX − startX)` clamped to
`[400, 0.8 × windowInnerWidth]`; when the other panel is open and the gap
would be violated, the other panel is shrunk when that leaves it at least
400 wide, and otherwise the dragged panel's width is capped using the
position the other panel would have at its minimum width.  A final
`Math.max(minWidth, ·)` is applied on every path (line 280). -/
def handleMouseMove (pos : String) (env : PanelDragEnv)
    (startX startWidth clientX : ℚ) : DragMoveResult :=
  let maxWidth := env.windowInnerWidth * (8/10)
  let deltaX := if pos = "left" then clientX - startX else startX - clientX
  let newWidth := jsMax panelMinWidth (jsMin maxWidth (startWidth + deltaX))
  if env.otherOpen then
    if pos = "left" then
      let thisPanelRight := env.thisLeft + newWidth
      let maxRightEdgeWithGap := env.otherLeft - gapBetweenPanels
      if maxRightEdgeWithGap < thisPanelRight then
        let overlap := thisPanelRight - maxRightEdgeWithGap
        let otherPanelNewWidth := env.otherWidth - overlap
        if panelMinWidth ≤ otherPanelNewWidth then
          ⟨jsMax panelMinWidth newWidth, some otherPanelNewWidth⟩
        else
          let otherPanelAtMinLeft := env.windowInnerWidth - panelMinWidth
          let maxAllowedRightWithMinOther := otherPanelAtMinLeft - gapBetweenPanels
          ⟨jsMax panelMinWidth (jsMin newWidth (maxAllowedRightWithMinOther - env.thisLeft)),
            none⟩
      else ⟨jsMax panelMinWidth newWidth, none⟩
    else
      let otherPanelRight := env.otherLeft + env.otherWidth
      let minLeftEdgeWithGap := otherPanelRight + gapBetweenPanels
      let thisPanelLeft := env.windowInnerWidth - newWidth
      if thisPanelLeft < minLeftEdgeWithGap then
        let overlap := minLeftEdgeWithGap - thisPanelLeft
        let otherPanelNewWidth := env.otherWidth - overlap
        if panelMinWidth ≤ otherPanelNewWidth then
          ⟨jsMax panelMinWidth newWidth, some otherPanelNewWidth⟩
        else
          let otherPanelAtMinRight := env.otherLeft + panelMinWidth
          let minAllowedLeft := otherPanelAtMinRight + gapBetweenPanels
          let maxAllowedWidth := env.windowInnerWidth - minAllowedLeft
          ⟨jsMax panelMinWidth (jsMin newWidth maxAllowedWidth), none⟩
      else ⟨jsMax panelMinWidth newWidth, none⟩
  else ⟨jsMax panelMinWidth newWidth, none⟩

/-- Counterexample to C1 as stated: viewport 1200, right panel open at width
500 (left edge 700, anchored to the right edge), left panel dragged from
width 400 by a 450px mouse jump.  The candidate width 850 violates the gap;
shrinking the right panel by the 250px overlap would take it to 250 < 400,
so the code takes the cap branch — it leaves the right panel at 500 and caps
the left panel at 700 as if the right panel were at its 400 minimum.  The
resulting inner-edge gap is 700 − 700 = 0 < 100: the gap IS violated, and
the right panel was NOT first shrunk down to its 400px minimum. -/
theorem C1_counterexample :
    handleMouseMove "left" ⟨1200, true, 700, 500, 0⟩ 0 400 450 = ⟨700, none⟩
    ∧ (700 : ℚ) - (0 + 700) < gapBetweenPanels
    ∧ panelMinWidth < (500 : ℚ) := by
  refine ⟨?_, by norm_num [gapBetweenPanels], by norm_num [panelMinWidth]⟩
  norm_num [handleMouseMove, jsMin, jsMax, panelMinWidth, gapBetweenPanels]

lemma jsMax_min_le (a b : ℚ) : a ≤ jsMax a b := by
  rw [jsMax_eq]
  exact le_max_left _ _

lemma jsMax_eq_right_of_le {a b : ℚ} (h : a ≤ b) : jsMax a b = b := by
  rw [jsMax_eq]
  exact max_eq_right h

/-- `handleMouseMove` for the left panel, with the string dispatch resolved. -/
lemma handleMouseMove_left_eq (env : PanelDragEnv) (startX startWidth clientX : ℚ) :
    handleMouseMove "left" env startX startWidth clientX =
      if env.otherOpen then
        if env.otherLeft - gapBetweenPanels <
            env.thisLeft + jsMax panelMinWidth (jsMin (env.windowInnerWidth * (8/10)) (startWidth + (clientX - startX))) then
          if panelMinWidth ≤ env.otherWidth -
              (env.thisLeft + jsMax panelMinWidth (jsMin (env.windowInnerWidth * (8/10)) (startWidth + (clientX - startX))) -
                (env.otherLeft - gapBetweenPanels)) then
            ⟨jsMax panelMinWidth (jsMax panelMinWidth (jsMin (env.windowInnerWidth * (8/10)) (startWidth + (clientX - startX)))),
              some (env.otherWidth -
                (env.thisLeft + jsMax panelMinWidth (jsMin (env.windowInnerWidth * (8/10)) (startWidth + (clientX - startX))) -
                  (env.otherLeft - gapBetweenPanels)))⟩
          else
            ⟨jsMax panelMinWidth
                (jsMin (jsMax panelMinWidth (jsMin (env.windowInnerWidth * (8/10)) (startWidth + (clientX - startX))))
                  (env.windowInnerWidth - panelMinWidth - gapBetweenPanels - env.thisLeft)),
              none⟩
        else ⟨jsMax panelMinWidth (jsMax panelMinWidth (jsMin (env.windowInnerWidth * (8/10)) (startWidth + (clientX - startX)))), none⟩
      else ⟨jsMax panelMinWidth (jsMax panelMinWidth (jsMin (env.windowInnerWidth * (8/10)) (startWidth + (clientX - startX)))), none⟩ := rfl

/-- `handleMouseMove` for the right panel, with the string dispatch resolved. -/
lemma handleMouseMove_right_eq (env : PanelDragEnv) (startX startWidth clientX : ℚ) :
    handleMouseMove "right" env startX startWidth clientX =
      if env.otherOpen then
        if env.windowInnerWidth - (jsMax panelMinWidth (jsMin (env.windowInnerWidth * (8/10)) (startWidth + (startX - clientX)))) <
            env.otherLeft + env.otherWidth + gapBetweenPanels then
          if panelMinWidth ≤ env.otherWidth -
              (env.otherLeft + env.otherWidth + gapBetweenPanels -
                (env.windowInnerWidth - (jsMax panelMinWidth (jsMin (env.windowInnerWidth * (8/10)) (startWidth + (startX - clientX)))))) then
            ⟨jsMax panelMinWidth (jsMax panelMinWidth (jsMin (env.windowInnerWidth * (8/10)) (startWidth + (startX - clientX)))),
              some (env.otherWidth -
                (env.otherLeft + env.otherWidth + gapBetweenPanels -
                  (env.windowInnerWidth - (jsMax panelMinWidth (jsMin (env.windowInnerWidth * (8/10)) (startWidth + (startX - clientX)))))))⟩
          else
            ⟨jsMax panelMinWidth
                (jsMin (jsMax panelMinWidth (jsMin (env.windowInnerWidth * (8/10)) (startWidth + (startX - clientX))))
                  (env.windowInnerWidth - (env.otherLeft + panelMinWidth + gapBetweenPanels))),
              none⟩
        else ⟨jsMax panelMinWidth (jsMax panelMinWidth (jsMin (env.windowInnerWidth * (8/10)) (startWidth + (startX - clientX)))), none⟩
      else ⟨jsMax panelMinWidth (jsMax panelMinWidth (jsMin (env.windowInnerWidth * (8/10)) (startWidth + (startX - clientX)))), none⟩ := rfl

/-- C1 (amended): during a drag of one panel with the other open, the
candidate width is clamped to `[400, 0.8 × viewport]`, and:
(1) whenever the negotiator shrinks the other panel, the other panel stays
at least 400 wide and the inner-edge gap afterwards is exactly 100
(for a left drag, assuming the right panel is anchored to the right edge);
(2) when the other panel is already exactly at its 400 minimum, the dragged
panel's growth is capped and the 100 gap is preserved;
but when the required shrink would take the other panel below 400 while it
is still wider than 400, the other panel is left unchanged and the dragged
panel is capped as if the other panel were at its minimum, which can
violate the gap (see the counterexample).  In particular for viewport 1200
with the right panel open at 400, dragging the left panel to 900 ends with
the left panel at exactly 700 = 1200 − 400 − 100. -/
theorem C1_amended (env : PanelDragEnv) (startX startWidth clientX : ℚ) :
    (∀ ow, env.otherLeft = env.windowInnerWidth - env.otherWidth →
        (handleMouseMove "left" env startX startWidth clientX).otherNewWidth = some ow →
        panelMinWidth ≤ ow ∧
          (env.windowInnerWidth - ow) -
            (env.thisLeft + (handleMouseMove "left" env startX startWidth clientX).newWidth) =
            gapBetweenPanels)
    ∧ (env.otherOpen = true → env.otherWidth = panelMinWidth →
        env.otherLeft = env.windowInnerWidth - panelMinWidth →
        env.thisLeft + 900 ≤ env.windowInnerWidth →
        (handleMouseMove "left" env startX startWidth clientX).otherNewWidth = none ∧
          env.thisLeft + (handleMouseMove "left" env startX startWidth clientX).newWidth +
            gapBetweenPanels ≤ env.otherLeft)
    ∧ (∀ ow,
        (handleMouseMove "right" env startX startWidth clientX).otherNewWidth = some ow →
        panelMinWidth ≤ ow ∧
          (env.windowInnerWidth -
              (handleMouseMove "right" env startX startWidth clientX).newWidth) -
            (env.otherLeft + ow) = gapBetweenPanels)
    ∧ (env.otherOpen = true → env.otherWidth = panelMinWidth →
        env.otherLeft + 900 ≤ env.windowInnerWidth →
        (handleMouseMove "right" env startX startWidth clientX).otherNewWidth = none ∧
          env.otherLeft + panelMinWidth + gapBetweenPanels +
            (handleMouseMove "right" env startX startWidth clientX).newWidth ≤
            env.windowInnerWidth)
    ∧ panelMinWidth ≤ (handleMouseMove "left" env startX startWidth clientX).newWidth
    ∧ handleMouseMove "left" ⟨1200, true, 800, 400, 0⟩ 0 400 500 = ⟨700, none⟩ := by
  refine ⟨?_, ?_, ?_, ?_, ?_, ?_⟩
  · intro ow hanchor hsome
    rw [handleMouseMove_left_eq] at hsome ⊢
    set C := jsMax panelMinWidth
      (jsMin (env.windowInnerWidth * (8/10)) (startWidth + (clientX - startX))) with hC
    have hcand : panelMinWidth ≤ C := hC ▸ jsMax_min_le _ _
    by_cases ho : env.otherOpen = true
    · rw [if_pos ho] at hsome ⊢
      by_cases h1 : env.otherLeft - gapBetweenPanels < env.thisLeft + C
      · rw [if_pos h1] at hsome ⊢
        by_cases h2 : panelMinWidth ≤
            env.otherWidth - (env.thisLeft + C - (env.otherLeft - gapBetweenPanels))
        · rw [if_pos h2] at hsome ⊢
          dsimp only at hsome ⊢
          rw [Option.some.injEq] at hsome
          subst hsome
          refine ⟨h2, ?_⟩
          rw [jsMax_eq_right_of_le hcand]
          simp only [panelMinWidth, gapBetweenPanels] at hanchor ⊢
          linarith
        · rw [if_neg h2] at hsome
          simp at hsome
      · rw [if_neg h1] at hsome
        simp at hsome
    · rw [Bool.not_eq_true] at ho
      rw [ho] at hsome
      simp at hsome
  · intro ho hW hL hT
    rw [handleMouseMove_left_eq, if_pos ho]
    set C := jsMax panelMinWidth
      (jsMin (env.windowInnerWidth * (8/10)) (startWidth + (clientX - startX))) with hC
    have hcand : panelMinWidth ≤ C := hC ▸ jsMax_min_le _ _
    by_cases h1 : env.otherLeft - gapBetweenPanels < env.thisLeft + C
    · rw [if_pos h1]
      by_cases h2 : panelMinWidth ≤
          env.otherWidth - (env.thisLeft + C - (env.otherLeft - gapBetweenPanels))
      · exfalso
        simp only [panelMinWidth, gapBetweenPanels] at h1 h2 hW hL
        linarith
      · rw [if_neg h2]
        refine ⟨rfl, ?_⟩
        dsimp only
        have hub : jsMax panelMinWidth
            (jsMin C (env.windowInnerWidth - panelMinWidth - gapBetweenPanels - env.thisLeft)) ≤
            env.windowInnerWidth - panelMinWidth - gapBetweenPanels - env.thisLeft := by
          rw [jsMax_eq, jsMin_eq]
          refine max_le ?_ (min_le_right _ _)
          simp only [panelMinWidth, gapBetweenPanels] at hT ⊢
          linarith
        simp only [panelMinWidth, gapBetweenPanels] at hub hL ⊢
        linarith
    · rw [if_neg h1]
      refine ⟨rfl, ?_⟩
      dsimp only
      rw [jsMax_eq_right_of_le hcand]
      push_neg at h1
      linarith
  · intro ow hsome
    rw [handleMouseMove_right_eq] at hsome ⊢
    set C := jsMax panelMinWidth
      (jsMin (env.windowInnerWidth * (8/10)) (startWidth + (startX - clientX))) with hC
    have hcand : panelMinWidth ≤ C := hC ▸ jsMax_min_le _ _
    by_cases ho : env.otherOpen = true
    · rw [if_pos ho] at hsome ⊢
      by_cases h1 : env.windowInnerWidth - C <
          env.otherLeft + env.otherWidth + gapBetweenPanels
      · rw [if_pos h1] at hsome ⊢
        by_cases h2 : panelMinWidth ≤ env.otherWidth -
            (env.otherLeft + env.otherWidth + gapBetweenPanels - (env.windowInnerWidth - C))
        · rw [if_pos h2] at hsome ⊢
          dsimp only at hsome ⊢
          rw [Option.some.injEq] at hsome
          subst hsome
          refine ⟨h2, ?_⟩
          rw [jsMax_eq_right_of_le hcand]
          simp only [panelMinWidth, gapBetweenPanels]
          ring
        · rw [if_neg h2] at hsome
          simp at hsome
      · rw [if_neg h1] at hsome
        simp at hsome
    · rw [Bool.not_eq_true] at ho
      rw [ho] at hsome
      simp at hsome
  · intro ho hW hT
    rw [handleMouseMove_right_eq, if_pos ho]
    set C := jsMax panelMinWidth
      (jsMin (env.windowInnerWidth * (8/10)) (startWidth + (startX - clientX))) with hC
    have hcand : panelMinWidth ≤ C := hC ▸ jsMax_min_le _ _
    by_cases h1 : env.windowInnerWidth - C <
        env.otherLeft + env.otherWidth + gapBetweenPanels
    · rw [if_pos h1]
      by_cases h2 : panelMinWidth ≤ env.otherWidth -
          (env.otherLeft + env.otherWidth + gapBetweenPanels - (env.windowInnerWidth - C))
      · exfalso
        simp only [panelMinWidth, gapBetweenPanels] at h1 h2 hW
        linarith
      · rw [if_neg h2]
        refine ⟨rfl, ?_⟩
        dsimp only
        have hub : jsMax panelMinWidth
            (jsMin C (env.windowInnerWidth -
              (env.otherLeft + panelMinWidth + gapBetweenPanels))) ≤
            env.windowInnerWidth - (env.otherLeft + panelMinWidth + gapBetweenPanels) := by
          rw [jsMax_eq, jsMin_eq]
          refine max_le ?_ (min_le_right _ _)
          simp only [panelMinWidth, gapBetweenPanels] at hT ⊢
          linarith
        simp only [panelMinWidth, gapBetweenPanels] at hub ⊢
        linarith
    · rw [if_neg h1]
      refine ⟨rfl, ?_⟩
      dsimp only
      rw [jsMax_eq_right_of_le hcand]
      push_neg at h1
      simp only [panelMinWidth, gapBetweenPanels] at h1 hW ⊢
      linarith
  · rw [handleMouseMove_left_eq]
    set C := jsMax panelMinWidth
      (jsMin (env.windowInnerWidth * (8/10)) (startWidth + (clientX - startX))) with hC
    by_cases ho : env.otherOpen = true
    · rw [if_pos ho]
      split_ifs <;> exact jsMax_min_le _ _
    · rw [Bool.not_eq_true] at ho
      rw [ho]
      simp only [Bool.false_eq_true, if_false]
      exact jsMax_min_le _ _
  · norm_num [handleMouseMove, jsMin, jsMax, panelMinWidth, gapBetweenPanels]


/-- Witness for C1 (amended) at the claim's concrete input: viewport 1200,
right panel open at its 400 minimum (left edge 800), left panel dragged
from 400 toward 900; the right panel is untouched and the final left width
keeps the 100 gap (in fact it is exactly 700). -/
theorem C1_amended_witness :
    (handleMouseMove "left" ⟨1200, true, 800, 400, 0⟩ 0 400 500).otherNewWidth = none ∧
    (0 : ℚ) + (handleMouseMove "left" ⟨1200, true, 800, 400, 0⟩ 0 400 500).newWidth +
      gapBetweenPanels ≤ 800 :=
  (C1_amended ⟨1200, true, 800, 400, 0⟩ 0 400 500).2.1 rfl (by norm_num [panelMinWidth])
    (by norm_num [panelMinWidth]) (by norm_num)

/-! ## Canvas state: nodes, test scope, execution path and path highlights

The mutable state of `FlowCanvas` relevant to the claims: `config.nodes`,
`executionPath`, `pathHighlights`, `testStartPoint`, `testEndPoint`.
`pathHighlights` is a JS object keyed by scenario id; it is modelled as an
association list with insert-or-replace update (JS property assignment keeps
the original insertion position of an existing key). -/

/-- A node of the flow (only the fields the engine reads). -/
structure FlowNode where
  id : String
  type : String
  title : String
  subtitle : String
deriving DecidableEq, Repr

/-- One entry of `this.pathHighlights`:
`{ status: 'passed'|'failed'|'error'|'not-run', connectors: [indices] }`. -/
structure PathHighlight where
  status : String
  connectors : List Int
deriving DecidableEq, Repr

/-- One element of the argument of `setPathHighlights`:
`{ scenarioId, status, connectors }`.  A missing/empty status stands for a
falsy JS status (defaulted to `'not-run'`). -/
structure ScenarioHighlightInput where
  scenarioId : String
  status : String
  connectors : List Int
deriving DecidableEq, Repr

/-- The canvas state relevant to scope/highlight behaviour. -/
structure CanvasState where
  nodes : List FlowNode
  executionPath : List Int
  pathHighlights : List (String × PathHighlight)
  testStartPoint : Option String
  testEndPoint : Option String
deriving DecidableEq, Repr

/-- State right after construction: empty execution path and highlights, no
test start/end point (FlowCanvas constructor, lines 31-47). -/
def mkCanvas (nodes : List FlowNode) : CanvasState := ⟨nodes, [], [], none, none⟩

/-- `getDefaultNodes()` (FlowCanvas.js lines 76-119), restricted to the
fields the engine reads. -/
def defaultNodes : List FlowNode :=
  [⟨"start", "start", "Record-Triggered Flow", "Start"⟩,
   ⟨"create-task", "create", "Create Task", "Create Records"⟩,
   ⟨"update-case", "update", "Update Case to Escalated", "Update Records"⟩,
   ⟨"send-email", "action", "Send Email to User", "Action"⟩,
   ⟨"end", "end", "End", ""⟩]

/-- `Array.prototype.findIndex` on the node list: the index of the first
node with the given id, `-1` when absent. -/
def findIndex (nodes : List FlowNode) (nodeId : String) : Int :=
  match nodes.findIdx? (fun n => n.id == nodeId) with
  | some i => (i : Int)
  | none => -1

/-- Index normalization of `Array.prototype.slice`: negative indices count
from the end, and indices are clamped to `[0, length]`. -/
def jsSliceIdx (len : Nat) (x : Int) : Nat :=
  if x < 0 then (max ((len : Int) + x) 0).toNat else min x.toNat len

/-- `Array.prototype.slice(s, e)`. -/
def jsSlice {α : Type} (l : List α) (s e : Int) : List α :=
  (l.take (jsSliceIdx l.length e)).drop (jsSliceIdx l.length s)

/-- `getTestScope()` (FlowCanvas.js lines 2129-2143). -/
def getTestScope (s : CanvasState) : List String :=
  if s.testStartPoint = none ∧ s.testEndPoint = none then
    s.nodes.map (·.id)
  else
    let startIndex : Int := match s.testStartPoint with
      | some x => findIndex s.nodes x
      | none => 0
    let endIndex : Int := match s.testEndPoint with
      | some x => findIndex s.nodes x
      | none => (s.nodes.length : Int) - 1
    (jsSlice s.nodes startIndex (endIndex + 1)).map (·.id)

/-- Whether connector `i` renders the `Test Start` badge: the node after the
connector is the start point (`renderConnector`, FlowCanvas.js line 449). -/
def isStartBadge (s : CanvasState) (i : Nat) : Bool :=
  match s.nodes.get? (i + 1) with
  | some nd => s.testStartPoint == some nd.id
  | none => false

/-- Whether connector `i` renders the `Test End` badge: the node before the
connector is the end point, and the connector does not already carry the
start badge (the `else if` at FlowCanvas.js line 466). -/
def isEndBadge (s : CanvasState) (i : Nat) : Bool :=
  !isStartBadge s i &&
    (match s.nodes.get? i with
     | some nd => s.testEndPoint == some nd.id
     | none => false)

/-- Number of rendered connectors: one between each pair of consecutive
nodes. -/
def connCount (s : CanvasState) : Nat := s.nodes.length - 1

/-- The last index `< n` satisfying `p` — the value left in a variable by a
`forEach` loop that overwrites it at every index where `p` holds (the
badge-position scans at FlowCanvas.js lines 520-527, 583-590, 882-889). -/
def lastIdxWith (p : Nat → Bool) : Nat → Option Nat
  | 0 => none
  | n + 1 => if p n then some n else lastIdxWith p n

/-- `startConnectorIndex` as read back from the rendered connectors. -/
def startConnIdx (s : CanvasState) : Option Nat :=
  lastIdxWith (isStartBadge s) (connCount s)

/-- `endConnectorIndex` as read back from the rendered connectors. -/
def endConnIdx (s : CanvasState) : Option Nat :=
  lastIdxWith (isEndBadge s) (connCount s)

/-- `filterConnectorsByTestScope(connectorIndices)` (FlowCanvas.js lines
877-904): drop indices before the start-bound connector and after the
end-bound connector (the end-bound connector itself is kept). -/
def filterConnectorsByTestScope (s : CanvasState) (connectorIndices : List Int) : List Int :=
  let f1 := match startConnIdx s with
    | some k => connectorIndices.filter (fun j => (k : Int) ≤ j)
    | none => connectorIndices
  match endConnIdx s with
  | some e => f1.filter (fun j => j ≤ (e : Int))
  | none => f1

/-- Insert-or-replace for the `pathHighlights` object: property assignment
keeps an existing key at its position, otherwise appends. -/
def setHighlightEntry : List (String × PathHighlight) → String → PathHighlight →
    List (String × PathHighlight)
  | [], k, v => [(k, v)]
  | (k', v') :: rest, k, v =>
    if k' = k then (k, v) :: rest else (k', v') :: setHighlightEntry rest k v

/-- `setPathHighlights(scenarioHighlights)` (FlowCanvas.js lines 857-874):
rebuilds `pathHighlights` from scratch, keeping only entries with a truthy
scenario id and a nonempty connector list, defaulting a falsy status to
`'not-run'`, and filtering each connector list by the current test scope. -/
def setPathHighlights (scenarioHighlights : List ScenarioHighlightInput) (s : CanvasState) :
    CanvasState :=
  { s with pathHighlights :=
      scenarioHighlights.foldl (fun acc inp =>
        if inp.scenarioId ≠ "" ∧ inp.connectors ≠ [] then
          setHighlightEntry acc inp.scenarioId
            ⟨if inp.status = "" then "not-run" else inp.status,
             filterConnectorsByTestScope s inp.connectors⟩
        else acc) [] }

/-- `setExecutionPath(connectorIndices)` (FlowCanvas.js lines 507-569).
With a nonempty input the code additionally pushes the connectors between
the start badge and the end badge (or every connector before the end badge
when no start badge exists), then removes the end-bound connector and every
connector past it. -/
def computeExecutionPath (connectorIndices : List Int) (s : CanvasState) : List Int :=
  if connectorIndices.isEmpty then connectorIndices
  else
    let sIdx := startConnIdx s
    let eIdx := endConnIdx s
    let n := connCount s
    let p1 := match sIdx with
      | some k =>
        (List.range' (k + 1) ((match eIdx with | some e => e | none => n) - (k + 1))).foldl
          (fun p i =>
            if (match eIdx with | some e => i ≠ e | none => true : Bool) ∧ ¬((i : Int) ∈ p) then
              p ++ [(i : Int)]
            else p) connectorIndices
      | none => connectorIndices
    let p2 := match eIdx, sIdx with
      | some e, none =>
        (List.range e).foldl (fun p i =>
          if i ≠ e ∧ ¬((i : Int) ∈ p) then p ++ [(i : Int)] else p) p1
      | _, _ => p1
    match eIdx with
    | some e => (p2.filter (fun j => j ≠ (e : Int))).filter (fun j => j < (e : Int))
    | none => p2

/-- The state update of `setExecutionPath`: store the computed path. -/
def setExecutionPath (connectorIndices : List Int) (s : CanvasState) : CanvasState :=
  { s with executionPath := computeExecutionPath connectorIndices s }

/-- `clearExecutionPath()` (FlowCanvas.js lines 850-854): clears both the
legacy path and the scenario highlights. -/
def clearExecutionPath (s : CanvasState) : CanvasState :=
  { s with executionPath := [], pathHighlights := [] }

/-- `setTestStartPoint(nodeId)` (FlowCanvas.js lines 2015-2028).
`handleStartEndPointChange` always calls `clearExecutionPath`; the Run
Result tab switching it may also trigger is pure DOM. -/
def setTestStartPoint (nodeId : String) (s : CanvasState) : CanvasState :=
  { clearExecutionPath s with testStartPoint := some nodeId }

/-- `setTestEndPoint(nodeId)` (FlowCanvas.js lines 2030-2050): clears the
path state and unconditionally installs the new end point. -/
def setTestEndPoint (nodeId : String) (s : CanvasState) : CanvasState :=
  { clearExecutionPath s with testEndPoint := some nodeId }

/-- `removeTestStartPoint()` (FlowCanvas.js lines 2085-2095). -/
def removeTestStartPoint (s : CanvasState) : CanvasState :=
  { clearExecutionPath s with testStartPoint := none }

/-- `removeTestEndPoint(nodeId)` (FlowCanvas.js lines 2097-2107). -/
def removeTestEndPoint (s : CanvasState) : CanvasState :=
  { clearExecutionPath s with testEndPoint := none }

/-- `clearPathHighlights(scenarioIds = null)` (FlowCanvas.js lines 907-917). -/
def clearPathHighlights (scenarioIds : Option (List String)) (s : CanvasState) : CanvasState :=
  match scenarioIds with
  | none => { s with pathHighlights := [] }
  | some ids => { s with pathHighlights := s.pathHighlights.filter (fun kv => ¬ kv.1 ∈ ids) }

/-- The `set-end-point` branch of the menu-item click dispatch
(FlowCanvas.js lines 1445-1475): refuses (no-op) when the menu item carries
the disabled attribute, when the next node is the terminal `end` element,
or when the next node is the current end point; otherwise calls
`setTestEndPoint`. -/
def setEndPointMenuAction (itemDisabled : Bool) (nodeId : String) (s : CanvasState) :
    CanvasState :=
  if itemDisabled then s
  else
    let currentNodeIndex := findIndex s.nodes nodeId
    if 0 ≤ currentNodeIndex ∧ currentNodeIndex < (s.nodes.length : Int) - 1 then
      match s.nodes.get? (currentNodeIndex.toNat + 1) with
      | some nextNode =>
        if nextNode.type = "end" then s
        else
          match s.testEndPoint with
          | some ep =>
            if 0 ≤ findIndex s.nodes ep ∧ currentNodeIndex + 1 = findIndex s.nodes ep then s
            else setTestEndPoint nodeId s
          | none => setTestEndPoint nodeId s
      | none => setTestEndPoint nodeId s
    else setTestEndPoint nodeId s

/-! ## Connector rendering (updateConnectorStyles / applyPathHighlightStyles) -/

/-- `[...new Set(xs)]`: deduplication keeping the first occurrence of each
element. -/
def jsSetDedup : List String → List String
  | [] => []
  | a :: l => a :: (jsSetDedup l).filter (fun b => ¬ b = a)

/-- Code-unit comparison of characters, as used by the default
`Array.prototype.sort()` comparator. -/
def charLtB (a b : Char) : Bool := a.toNat < b.toNat

/-- Lexicographic comparison of character lists. -/
def charListLtB : List Char → List Char → Bool
  | [], [] => false
  | [], _ :: _ => true
  | _ :: _, [] => false
  | a :: as, b :: bs =>
    if charLtB a b then true
    else if charLtB b a then false
    else charListLtB as bs

/-- Lexicographic string comparison; on the ASCII status strings this agrees
with the UTF-16 code-unit comparison of the default JS sort comparator. -/
def strLtB (a b : String) : Bool := charListLtB a.data b.data

/-- Insert into a lexicographically sorted list of strings. -/
def insertSortedStr (a : String) : List String → List String
  | [] => [a]
  | b :: l => if strLtB a b then a :: b :: l else b :: insertSortedStr a l

/-- `Array.prototype.sort()` on strings (default lexicographic comparison);
on the pairwise-distinct lists it is applied to, any sorting algorithm
produces this result. -/
def sortStrs : List String → List String
  | [] => []
  | a :: l => insertSortedStr a (sortStrs l)

/-- The highlight state a single connector line is put into by
`applyPathHighlightStyles` / `clearPathHighlightStyles`. -/
inductive LineRender where
  | noHighlight
  | single (status : String)
  | multi (sortedKey : List String)
  | executed
deriving DecidableEq, Repr

/-- `applyPathHighlightStyles(lineElement, pathStatuses, hasLegacyExecuted)`
(FlowCanvas.js lines 660-697): scenario statuses are deduplicated; one
distinct status gives a single-status line; two or more give a multi-status
line keyed by the sorted distinct statuses; with no scenario status the
line is `executed` exactly when the legacy flag is set. -/
def applyPathHighlightStyles (pathStatuses : List String) (hasLegacyExecuted : Bool) :
    LineRender :=
  match jsSetDedup pathStatuses with
  | [] => if hasLegacyExecuted then LineRender.executed else LineRender.noHighlight
  | [st] => LineRender.single st
  | us => LineRender.multi (sortStrs us)

/-- `connectorStatusMap[index]` (FlowCanvas.js lines 594-605): the statuses
pushed for connector `i`, one per occurrence of `i` in each scenario's
connector list, in scenario insertion order. -/
def connectorStatusList (s : CanvasState) (i : Nat) : List String :=
  s.pathHighlights.foldl
    (fun acc kv =>
      acc ++ (kv.2.connectors.filter (fun j => j = (i : Int))).map (fun _ => kv.2.status)) []

/-- `hasLegacyPath` (FlowCanvas.js line 573). -/
def hasLegacyPath (s : CanvasState) : Bool := !s.executionPath.isEmpty

/-- `isAfterEnd` (FlowCanvas.js line 612):
`endConnectorIndex >= 0 && index > endConnectorIndex`. -/
def isAfterEnd (s : CanvasState) (i : Nat) : Bool :=
  match endConnIdx s with
  | some e => e < i
  | none => false

/-- `isLegacyExecuted` (FlowCanvas.js line 613). -/
def isLegacyExecuted (s : CanvasState) (i : Nat) : Bool :=
  !isAfterEnd s i && hasLegacyPath s && s.executionPath.contains (i : Int)

/-- The rendered state of one connector: badge connectors have a line above
and a line below the badge, plain connectors a single main line; lines that
do not exist, or that `clearPathHighlightStyles` wipes, are
`noHighlight`. -/
structure ConnectorRender where
  lineAbove : LineRender
  lineBelow : LineRender
  mainLine : LineRender
deriving DecidableEq, Repr

/-- A connector with no highlight on any line. -/
def noRender : ConnectorRender := ⟨.noHighlight, .noHighlight, .noHighlight⟩

/-- The per-connector body of `updateConnectorStyles` (FlowCanvas.js lines
607-653): a start-badge connector highlights only its line below the badge,
an end-badge connector only its line above, and a plain connector its main
line unless it lies strictly after the end-bound connector, in which case
it is cleared. -/
def connectorRender (s : CanvasState) (i : Nat) : ConnectorRender :=
  let pathStatuses := connectorStatusList s i
  let leg := isLegacyExecuted s i && hasLegacyPath s
  if isStartBadge s i then
    ⟨LineRender.noHighlight, applyPathHighlightStyles pathStatuses leg, LineRender.noHighlight⟩
  else if isEndBadge s i then
    ⟨applyPathHighlightStyles pathStatuses leg, LineRender.noHighlight, LineRender.noHighlight⟩
  else
    ⟨LineRender.noHighlight, LineRender.noHighlight,
      if isAfterEnd s i then LineRender.noHighlight
      else applyPathHighlightStyles pathStatuses leg⟩

/-! ## Test scope: C2, C10, C3 -/

/-- The `scopeNodeIds` algorithm as the specification words it: all node ids
when neither bound is set; otherwise the inclusive slice from
`startIndex = start ? indexOf(start) : 0` to
`endIndex = end ? indexOf(end) : lastIndex`.  This is the spec-side
definition compared against `getTestScope` (the one translated from the
code). -/
def scopeNodeIds (s : CanvasState) : List String :=
  if s.testStartPoint = none ∧ s.testEndPoint = none then
    s.nodes.map (·.id)
  else
    let ids := s.nodes.map (·.id)
    let startIndex : Nat := match s.testStartPoint with
      | some x => ids.indexOf x
      | none => 0
    let endIndex : Nat := match s.testEndPoint with
      | some x => ids.indexOf x
      | none => ids.length - 1
    (ids.take (endIndex + 1)).drop startIndex

lemma findIdx_map_comp (p : String → Bool) (l : List FlowNode) :
    List.findIdx p (l.map (·.id)) = List.findIdx (fun n => p n.id) l := by
  induction l with
  | nil => rfl
  | cons a l ih => simp [List.findIdx_cons, ih]

/-- For an id present in the graph, the `-1`-sentinel `findIndex` agrees
with `indexOf` on the id list, and the index is in range. -/
lemma findIndex_of_mem {nodes : List FlowNode} {x : String}
    (hx : x ∈ nodes.map (·.id)) :
    findIndex nodes x = ((nodes.map (·.id)).indexOf x : Int) ∧
    (nodes.map (·.id)).indexOf x < nodes.length := by
  have hlt : List.findIdx (fun n => n.id == x) nodes < nodes.length := by
    obtain ⟨nd, hnd, hid⟩ := List.mem_map.mp hx
    exact List.findIdx_lt_length_of_exists ⟨nd, hnd, by simp [hid]⟩
  have hfi : nodes.findIdx? (fun n => n.id == x) =
      some (List.findIdx (fun n => n.id == x) nodes) :=
    List.findIdx?_eq_some_iff_findIdx_eq.mpr ⟨hlt, rfl⟩
  have hidx : (nodes.map (·.id)).indexOf x = List.findIdx (fun n => n.id == x) nodes := by
    rw [List.indexOf, findIdx_map_comp]
  refine ⟨?_, ?_⟩
  · rw [findIndex, hfi, hidx]
  · rw [hidx]
    exact hlt

lemma jsSliceIdx_ofNat (len k : Nat) : jsSliceIdx len (k : Int) = min k len := by
  simp [jsSliceIdx]

lemma jsSlice_map_id (nodes : List FlowNode) (a b : Nat)
    (ha : a ≤ nodes.length) (hb : b ≤ nodes.length) :
    (jsSlice nodes (a : Int) (b : Int)).map (·.id) =
    ((nodes.map (·.id)).take b).drop a := by
  rw [jsSlice, jsSliceIdx_ofNat, jsSliceIdx_ofNat, Nat.min_eq_left hb, Nat.min_eq_left ha,
    List.map_drop, List.map_take]


/-- C2: scopeNodeIds/getTestScope returns all node ids in order when neither
bound is set; otherwise the inclusive slice from the start bound's index
(0 when unset) to the end bound's index (the last index when unset) — stated
as equality between the code translation `getTestScope` and the spec-worded
`scopeNodeIds`, for bounds referencing existing nodes.  In particular, on
the default nodes, after `setTestStartPoint('create-task')` it returns
`['create-task','update-case','send-email','end']`. -/
theorem C2_scopeNodeIds (s : CanvasState)
    (hs : ∀ x, s.testStartPoint = some x → x ∈ s.nodes.map (·.id))
    (he : ∀ x, s.testEndPoint = some x → x ∈ s.nodes.map (·.id)) :
    getTestScope s = scopeNodeIds s ∧
    getTestScope (setTestStartPoint "create-task" (mkCanvas defaultNodes)) =
      ["create-task", "update-case", "send-email", "end"] := by
  refine ⟨?_, by rfl⟩
  simp only [getTestScope, scopeNodeIds]
  by_cases hnone : s.testStartPoint = none ∧ s.testEndPoint = none
  · rw [if_pos hnone, if_pos hnone]
  · rw [if_neg hnone, if_neg hnone]
    have hlen : (s.nodes.map (·.id)).length = s.nodes.length := List.length_map _ _
    rcases hsp : s.testStartPoint with _ | x <;> rcases hep : s.testEndPoint with _ | y <;>
      simp only [hsp, hep]
    · exact absurd ⟨hsp, hep⟩ hnone
    · -- start unset, end = y
      obtain ⟨hfy, hlty⟩ := findIndex_of_mem (he y hep)
      rw [hfy]
      rw [show ((s.nodes.map (·.id)).indexOf y : Int) + 1 =
          (((s.nodes.map (·.id)).indexOf y + 1 : Nat) : Int) by push_cast; ring]
      rw [show (0 : Int) = ((0 : Nat) : Int) from rfl]
      rw [jsSlice_map_id _ _ _ (by omega) (by omega)]
    · -- start = x, end unset
      obtain ⟨hfx, hltx⟩ := findIndex_of_mem (hs x hsp)
      rw [hfx]
      rw [show ((s.nodes.length : Int) - 1) + 1 = ((s.nodes.length : Nat) : Int) by ring]
      rw [jsSlice_map_id _ _ _ (by omega) (by omega)]
      rw [hlen, Nat.sub_add_cancel (by omega)]
    · -- both set
      obtain ⟨hfx, hltx⟩ := findIndex_of_mem (hs x hsp)
      obtain ⟨hfy, hlty⟩ := findIndex_of_mem (he y hep)
      rw [hfx, hfy]
      rw [show ((s.nodes.map (·.id)).indexOf y : Int) + 1 =
          (((s.nodes.map (·.id)).indexOf y + 1 : Nat) : Int) by push_cast; ring]
      rw [jsSlice_map_id _ _ _ (by omega) (by omega)]

/-- Witness for C2. -/
theorem C2_scopeNodeIds_witness :
    getTestScope (setTestStartPoint "create-task" (mkCanvas defaultNodes)) =
      scopeNodeIds (setTestStartPoint "create-task" (mkCanvas defaultNodes)) :=
  (C2_scopeNodeIds (setTestStartPoint "create-task" (mkCanvas defaultNodes))
    (by intro x hx; cases hx; decide)
    (by intro x hx; exact Option.noConfusion hx)).1


/-- C10 (implicit): when both bounds are set and the start node's index is
strictly greater than the end node's index, `getTestScope()` returns the
empty sequence.  `getTestScope` is a pure total function of the state, so no
error is raised and no state is modified. -/
theorem C10_inverted_scope (s : CanvasState) (sId eId : String) (si ei : Nat)
    (hstart : s.testStartPoint = some sId) (hend : s.testEndPoint = some eId)
    (hsi : findIndex s.nodes sId = (si : Int)) (hei : findIndex s.nodes eId = (ei : Int))
    (hinv : ei < si) :
    getTestScope s = [] := by
  simp only [getTestScope, hstart, hend]
  rw [if_neg (by simp)]
  rw [hsi, hei]
  rw [show ((ei : Int) + 1) = ((ei + 1 : Nat) : Int) by push_cast; ring]
  rw [jsSlice, jsSliceIdx_ofNat, jsSliceIdx_ofNat]
  rw [List.drop_eq_nil_of_le]
  · rfl
  · rw [List.length_take]
    omega


/-- Witness for C10: default nodes with start `send-email` (index 3) and
end `create-task` (index 1) yield the empty scope. -/
theorem C10_inverted_scope_witness :
    getTestScope (setTestStartPoint "send-email" (setTestEndPoint "create-task"
      (mkCanvas defaultNodes))) = [] :=
  C10_inverted_scope _ "send-email" "create-task" 3 1 rfl rfl (by decide) (by decide)
    (by omega)

/-- Counterexample to C3 as stated: in the default graph, `send-email`
(index 3) is immediately followed by the terminal node of type `end`, yet
invoking the model operation `setTestEndPoint` on it directly is NOT a
no-op — it installs `send-email` as the end point. -/
theorem C3_counterexample :
    (defaultNodes.get? 3).map (·.id) = some "send-email"
    ∧ (defaultNodes.get? 4).map (·.type) = some "end"
    ∧ (mkCanvas defaultNodes).testEndPoint = none
    ∧ (setTestEndPoint "send-email" (mkCanvas defaultNodes)).testEndPoint =
        some "send-email" := ⟨rfl, rfl, rfl, rfl⟩


/-- C3 (amended): the refusal of "set end point" on a node immediately
followed by the terminal `end` node or by the current end-bound node holds
in the menu-action dispatch, which re-checks the adjacency condition even
when the menu item is not marked disabled; the model operation
`setTestEndPoint` itself applies the change unconditionally when invoked
directly. -/
theorem C3_amended (s : CanvasState) (nodeId : String) (i : Nat) (nxt : FlowNode) (d : Bool)
    (hfi : findIndex s.nodes nodeId = (i : Int))
    (hnext : s.nodes.get? (i + 1) = some nxt)
    (hcond : nxt.type = "end" ∨
      ∃ ep, s.testEndPoint = some ep ∧ findIndex s.nodes ep = (i : Int) + 1) :
    setEndPointMenuAction d nodeId s = s ∧
    (setTestEndPoint nodeId s).testEndPoint = some nodeId := by
  refine ⟨?_, rfl⟩
  cases d with
  | true => rfl
  | false =>
    have hi1 : i + 1 < s.nodes.length := by
      obtain ⟨h, -⟩ := List.get?_eq_some.mp hnext
      exact h
    have hlt : (0 : Int) ≤ (i : Int) ∧ (i : Int) < (s.nodes.length : Int) - 1 := by
      constructor <;> omega
    simp only [setEndPointMenuAction, hfi, Bool.false_eq_true, if_false]
    rw [if_pos hlt]
    rw [show ((i : Int)).toNat = i from rfl, hnext]
    dsimp only
    by_cases htype : nxt.type = "end"
    · rw [if_pos htype]
    · rw [if_neg htype]
      rcases hcond with htype2 | ⟨ep, hep, hfe⟩
      · exact absurd htype2 htype
      · rw [hep]
        dsimp only
        rw [if_pos ⟨by rw [hfe]; omega, by rw [hfe]⟩]


/-- Witness for C3 (amended): the dispatch refuses `send-email`, whose
successor is the terminal `end` node, while the direct operation installs
it. -/
theorem C3_amended_witness :
    setEndPointMenuAction false "send-email" (mkCanvas defaultNodes) = mkCanvas defaultNodes
    ∧ (setTestEndPoint "send-email" (mkCanvas defaultNodes)).testEndPoint =
        some "send-email" :=
  C3_amended (mkCanvas defaultNodes) "send-email" 3 ⟨"end", "end", "End", ""⟩ false
    (by decide) (by decide) (Or.inl rfl)


/-! ## Highlight compositing: C6, C8, C9 -/

lemma mem_foldl_append {β : Type} (f : β → List String) (l : List β) (acc : List String)
    (st : String) :
    (st ∈ l.foldl (fun a kv => a ++ f kv) acc) ↔ st ∈ acc ∨ ∃ kv ∈ l, st ∈ f kv := by
  induction l generalizing acc with
  | nil => simp
  | cons b l ih =>
    simp only [List.foldl_cons, ih, List.mem_append, List.exists_mem_cons_iff, or_assoc]


/-- C6: a connector's rendered state is the distinct set of statuses
contributed by all scenario highlights touching it — membership in the
status list is exactly contribution by some stored highlight; exactly one
distinct status renders a single-status line and two or more render a
multi-status line with the sorted status key; and for two scenarios both
containing connector 2, one passed and one failed, the rendered state is
the multi-status line for the set containing both, independent of the input
order. -/
theorem C6_status_compositing (s : CanvasState) (i : Nat) (st : String) (leg : Bool) :
    (st ∈ connectorStatusList s i ↔
      ∃ kv ∈ s.pathHighlights, kv.2.status = st ∧ (i : Int) ∈ kv.2.connectors)
    ∧ (jsSetDedup (connectorStatusList s i) = [st] →
        applyPathHighlightStyles (connectorStatusList s i) leg = LineRender.single st)
    ∧ (2 ≤ (jsSetDedup (connectorStatusList s i)).length →
        applyPathHighlightStyles (connectorStatusList s i) leg =
          LineRender.multi (sortStrs (jsSetDedup (connectorStatusList s i))))
    ∧ connectorRender (setPathHighlights
        [⟨"s1", "passed", [2]⟩, ⟨"s2", "failed", [2]⟩] (mkCanvas defaultNodes)) 2 =
        ⟨LineRender.noHighlight, LineRender.noHighlight,
          LineRender.multi ["failed", "passed"]⟩
    ∧ connectorRender (setPathHighlights
        [⟨"s2", "failed", [2]⟩, ⟨"s1", "passed", [2]⟩] (mkCanvas defaultNodes)) 2 =
        ⟨LineRender.noHighlight, LineRender.noHighlight,
          LineRender.multi ["failed", "passed"]⟩ := by
  refine ⟨?_, ?_, ?_, by decide, by decide⟩
  · rw [connectorStatusList, mem_foldl_append]
    simp only [List.not_mem_nil, false_or, List.mem_map, List.mem_filter,
      decide_eq_true_eq]
    constructor
    · rintro ⟨kv, hkv, j, ⟨hj, hji⟩, hst⟩
      exact ⟨kv, hkv, hst, hji ▸ hj⟩
    · rintro ⟨kv, hkv, hst, hi⟩
      exact ⟨kv, hkv, (i : Int), ⟨hi, rfl⟩, hst⟩
  · intro h
    unfold applyPathHighlightStyles
    rw [h]
  · intro h
    unfold applyPathHighlightStyles
    rcases hd : jsSetDedup (connectorStatusList s i) with _ | ⟨a, _ | ⟨b, t⟩⟩
    · rw [hd] at h; simp at h
    · rw [hd] at h; simp at h
    · rfl


/-- Witness for C6 at a concrete input: a single passed scenario touching
connector 2 renders the single-status passed line. -/
theorem C6_status_compositing_witness :
    applyPathHighlightStyles (connectorStatusList (setPathHighlights
      [⟨"s1", "passed", [2]⟩] (mkCanvas defaultNodes)) 2) false =
      LineRender.single "passed" :=
  (C6_status_compositing (setPathHighlights [⟨"s1", "passed", [2]⟩]
    (mkCanvas defaultNodes)) 2 "passed" false).2.1 (by decide)

/-- Counterexample to C8 as stated: with no scope set, connector 1 is
touched both by the legacy execution path and by a passed scenario
highlight, yet its rendered state is the single scenario status alone — the
legacy executed status is suppressed, not unioned. -/
theorem C8_counterexample :
    isLegacyExecuted (setPathHighlights [⟨"s1", "passed", [1]⟩]
        (setExecutionPath [1] (mkCanvas defaultNodes))) 1 = true
    ∧ connectorStatusList (setPathHighlights [⟨"s1", "passed", [1]⟩]
        (setExecutionPath [1] (mkCanvas defaultNodes))) 1 = ["passed"]
    ∧ connectorRender (setPathHighlights [⟨"s1", "passed", [1]⟩]
        (setExecutionPath [1] (mkCanvas defaultNodes))) 1 =
        ⟨LineRender.noHighlight, LineRender.noHighlight, LineRender.single "passed"⟩ :=
  ⟨rfl, rfl, rfl⟩


/-- C8 (amended): scenario statuses take precedence over the legacy
executed status rather than being unioned with it — with at least one
scenario status on a line, the rendering ignores the legacy flag entirely
and is never the executed marker; the executed marker appears exactly when
no scenario status touches the line and the legacy flag is set. -/
theorem C8_amended (statuses : List String) (leg : Bool) :
    (statuses ≠ [] →
      applyPathHighlightStyles statuses leg = applyPathHighlightStyles statuses false
      ∧ applyPathHighlightStyles statuses leg ≠ LineRender.executed)
    ∧ applyPathHighlightStyles [] true = LineRender.executed
    ∧ applyPathHighlightStyles [] false = LineRender.noHighlight := by
  refine ⟨?_, rfl, rfl⟩
  intro hne
  rcases statuses with _ | ⟨a, l⟩
  · exact absurd rfl hne
  · have hd : jsSetDedup (a :: l) = a :: (jsSetDedup l).filter (fun b => ¬ b = a) := by
      rw [jsSetDedup]
    unfold applyPathHighlightStyles
    rw [hd]
    rcases hdd : (jsSetDedup l).filter (fun b => ¬ b = a) with _ | ⟨c, t⟩
    · exact ⟨rfl, by intro h; cases h⟩
    · exact ⟨rfl, by intro h; cases h⟩


/-- Witness for C8 (amended) at a concrete status list. -/
theorem C8_amended_witness :
    applyPathHighlightStyles ["passed"] true = applyPathHighlightStyles ["passed"] false ∧
    applyPathHighlightStyles ["passed"] true ≠ LineRender.executed :=
  (C8_amended ["passed"] true).1 (by decide)


/-- C9: setPathHighlights is idempotent — applying it twice with the same
input list (graph and scope unchanged in between) yields exactly the same
state, and in particular the same per-connector status lists. -/
theorem C9_setPathHighlights_idempotent (inputs : List ScenarioHighlightInput)
    (s : CanvasState) :
    setPathHighlights inputs (setPathHighlights inputs s) = setPathHighlights inputs s
    ∧ ∀ i : Nat, connectorStatusList (setPathHighlights inputs (setPathHighlights inputs s)) i =
        connectorStatusList (setPathHighlights inputs s) i :=
  ⟨rfl, fun _ => rfl⟩


/-! ## Temporal invariant: C7 -/

/-- The operations of the claim: the legacy path setter, the scenario
highlight setter, and the scope operations the component dispatches
(set/remove start and end point, plus the clear operations that reset the
path state). -/
inductive CanvasReachable (nodes : List FlowNode) : CanvasState → Prop where
  | init : CanvasReachable nodes (mkCanvas nodes)
  | execPath (l : List Int) {s : CanvasState} :
      CanvasReachable nodes s → CanvasReachable nodes (setExecutionPath l s)
  | highlights (l : List ScenarioHighlightInput) {s : CanvasState} :
      CanvasReachable nodes s → CanvasReachable nodes (setPathHighlights l s)
  | setStart (x : String) {s : CanvasState} :
      CanvasReachable nodes s → CanvasReachable nodes (setTestStartPoint x s)
  | setEnd (x : String) {s : CanvasState} :
      CanvasReachable nodes s → CanvasReachable nodes (setTestEndPoint x s)
  | removeStart {s : CanvasState} :
      CanvasReachable nodes s → CanvasReachable nodes (removeTestStartPoint s)
  | removeEnd {s : CanvasState} :
      CanvasReachable nodes s → CanvasReachable nodes (removeTestEndPoint s)
  | clearExec {s : CanvasState} :
      CanvasReachable nodes s → CanvasReachable nodes (clearExecutionPath s)
  | clearHl (ids : Option (List String)) {s : CanvasState} :
      CanvasReachable nodes s → CanvasReachable nodes (clearPathHighlights ids s)

lemma lastIdxWith_eq_some {p : Nat → Bool} :
    ∀ {n e : Nat}, lastIdxWith p n = some e → p e = true ∧ e < n := by
  intro n
  induction n with
  | zero => intro e h; exact Option.noConfusion h
  | succ m ih =>
    intro e h
    rw [lastIdxWith] at h
    split at h
    · next hp =>
      injection h with h'
      subst h'
      exact ⟨hp, Nat.lt_succ_self m⟩
    · next hp =>
      obtain ⟨h1, h2⟩ := ih h
      exact ⟨h1, Nat.lt_succ_of_lt h2⟩

lemma computeExecutionPath_lt_end {l : List Int} {s : CanvasState} {e : Nat}
    (he : endConnIdx s = some e) : ∀ j ∈ computeExecutionPath l s, j < (e : Int) := by
  intro j hj
  rw [computeExecutionPath] at hj
  split at hj
  · next hemp =>
    rw [List.isEmpty_iff.mp hemp] at hj
    exact absurd hj (List.not_mem_nil j)
  · rw [he] at hj
    simp only [List.mem_filter, decide_eq_true_eq] at hj
    exact hj.2

lemma filterConnectors_le_end {s : CanvasState} {c : List Int} {e : Nat}
    (he : endConnIdx s = some e) :
    ∀ j ∈ filterConnectorsByTestScope s c, j ≤ (e : Int) := by
  intro j hj
  rw [filterConnectorsByTestScope, he] at hj
  simp only [List.mem_filter, decide_eq_true_eq] at hj
  exact hj.2

lemma mem_setHighlightEntry {acc : List (String × PathHighlight)} {k : String}
    {v : PathHighlight} {kv : String × PathHighlight} :
    kv ∈ setHighlightEntry acc k v → kv = (k, v) ∨ kv ∈ acc := by
  induction acc with
  | nil =>
    intro h
    rw [setHighlightEntry] at h
    exact Or.inl (List.mem_singleton.mp h)
  | cons p rest ih =>
    intro h
    rw [setHighlightEntry] at h
    split at h
    · rcases List.mem_cons.mp h with h | h
      · exact Or.inl h
      · exact Or.inr (List.mem_cons_of_mem _ h)
    · rcases List.mem_cons.mp h with h | h
      · exact Or.inr (h ▸ List.mem_cons_self _ _)
      · rcases ih h with h' | h'
        · exact Or.inl h'
        · exact Or.inr (List.mem_cons_of_mem _ h')

lemma setPathHighlights_connectors_le {inputs : List ScenarioHighlightInput}
    {s : CanvasState} {e : Nat} (he : endConnIdx s = some e) :
    ∀ kv ∈ (setPathHighlights inputs s).pathHighlights, ∀ j ∈ kv.2.connectors,
      j ≤ (e : Int) := by
  have key : ∀ (ins : List ScenarioHighlightInput) (acc : List (String × PathHighlight)),
      (∀ kv ∈ acc, ∀ j ∈ kv.2.connectors, j ≤ (e : Int)) →
      ∀ kv ∈ ins.foldl (fun acc inp =>
          if inp.scenarioId ≠ "" ∧ inp.connectors ≠ [] then
            setHighlightEntry acc inp.scenarioId
              ⟨if inp.status = "" then "not-run" else inp.status,
               filterConnectorsByTestScope s inp.connectors⟩
          else acc) acc,
        ∀ j ∈ kv.2.connectors, j ≤ (e : Int) := by
    intro ins
    induction ins with
    | nil => intro acc hacc kv hkv; exact hacc kv hkv
    | cons inp rest ih =>
      intro acc hacc kv hkv
      simp only [List.foldl_cons] at hkv
      refine ih _ ?_ kv hkv
      intro kv' hkv' j hj
      split at hkv'
      · rcases mem_setHighlightEntry hkv' with h' | h'
        · subst h'
          exact filterConnectors_le_end he j hj
        · exact hacc kv' h' j hj
      · exact hacc kv' hkv' j hj
  exact key inputs [] (by intro kv hkv; exact absurd hkv (List.not_mem_nil kv))

/-- Invariant: in every state reachable by the claim's operations, whenever
an end-bound connector exists, the legacy execution path lies strictly
before it and every stored highlight's connectors lie at or before it. -/
lemma reachable_scopeTrimmed {nodes : List FlowNode} {s : CanvasState}
    (h : CanvasReachable nodes s) :
    ∀ e : Nat, endConnIdx s = some e →
      (∀ j ∈ s.executionPath, j < (e : Int)) ∧
      (∀ kv ∈ s.pathHighlights, ∀ j ∈ kv.2.connectors, j ≤ (e : Int)) := by
  induction h with
  | init =>
    intro e he
    exact ⟨fun j hj => absurd hj (List.not_mem_nil j),
      fun kv hkv => absurd hkv (List.not_mem_nil kv)⟩
  | execPath l hr ih =>
    intro e he
    exact ⟨fun j hj => computeExecutionPath_lt_end he j hj,
      fun kv hkv => (ih e he).2 kv hkv⟩
  | highlights l hr ih =>
    intro e he
    exact ⟨fun j hj => (ih e he).1 j hj, setPathHighlights_connectors_le he⟩
  | setStart x hr ih =>
    intro e he
    exact ⟨fun j hj => absurd hj (List.not_mem_nil j),
      fun kv hkv => absurd hkv (List.not_mem_nil kv)⟩
  | setEnd x hr ih =>
    intro e he
    exact ⟨fun j hj => absurd hj (List.not_mem_nil j),
      fun kv hkv => absurd hkv (List.not_mem_nil kv)⟩
  | removeStart hr ih =>
    intro e he
    exact ⟨fun j hj => absurd hj (List.not_mem_nil j),
      fun kv hkv => absurd hkv (List.not_mem_nil kv)⟩
  | removeEnd hr ih =>
    intro e he
    exact ⟨fun j hj => absurd hj (List.not_mem_nil j),
      fun kv hkv => absurd hkv (List.not_mem_nil kv)⟩
  | clearExec hr ih =>
    intro e he
    exact ⟨fun j hj => absurd hj (List.not_mem_nil j),
      fun kv hkv => absurd hkv (List.not_mem_nil kv)⟩
  | clearHl ids hr ih =>
    intro e he
    cases ids with
    | none =>
      exact ⟨fun j hj => (ih e he).1 j hj,
        fun kv hkv => absurd hkv (List.not_mem_nil kv)⟩
    | some l' =>
      refine ⟨fun j hj => (ih e he).1 j hj, ?_⟩
      intro kv hkv
      exact (ih e he).2 kv (List.mem_filter.mp hkv).1

lemma apply_false_ne_executed (st : List String) :
    applyPathHighlightStyles st false ≠ LineRender.executed := by
  unfold applyPathHighlightStyles
  rcases hd : jsSetDedup st with _ | ⟨a, _ | ⟨b, t⟩⟩ <;> simp

lemma connectorStatusList_eq_nil {s : CanvasState} {i : Nat}
    (h : ∀ kv ∈ s.pathHighlights, ∀ j ∈ kv.2.connectors, j ≠ (i : Int)) :
    connectorStatusList s i = [] := by
  rw [connectorStatusList]
  have key : ∀ (l : List (String × PathHighlight)) (acc : List String),
      (∀ kv ∈ l, ∀ j ∈ kv.2.connectors, j ≠ (i : Int)) →
      l.foldl (fun acc kv =>
        acc ++ (kv.2.connectors.filter (fun j => j = (i : Int))).map
          (fun _ => kv.2.status)) acc = acc := by
    intro l
    induction l with
    | nil => intro acc _; rfl
    | cons kv rest ih =>
      intro acc hk
      simp only [List.foldl_cons]
      have hfil : kv.2.connectors.filter (fun j => j = (i : Int)) = [] := by
        rw [List.filter_eq_nil]
        intro j hj
        simpa using hk kv (List.mem_cons_self _ _) j hj
      rw [hfil, List.map_nil, List.append_nil]
      exact ih acc (fun kv' hkv' => hk kv' (List.mem_cons_of_mem _ hkv'))
  exact key _ [] h

/-- C7: in every state reachable by any sequence of setExecutionPath,
setPathHighlights and scope operations, once an end point is set (so an
end-bound connector exists at index e), every connector strictly after e
carries no highlight at all on any of its lines, and the end-bound
connector itself is never rendered as legacy executed — its line toward the
end node may carry scenario statuses, but its other lines are clear and the
executed marker never appears, even when the indices passed to
setExecutionPath included e or later connectors. -/
theorem C7_end_bound_never_executed {nodes : List FlowNode} {s : CanvasState}
    (hreach : CanvasReachable nodes s) {e : Nat} (he : endConnIdx s = some e) :
    (∀ i : Nat, e < i → connectorRender s i = noRender)
    ∧ (connectorRender s e).lineAbove ≠ LineRender.executed
    ∧ (connectorRender s e).lineBelow = LineRender.noHighlight
    ∧ (connectorRender s e).mainLine = LineRender.noHighlight := by
  obtain ⟨hpath, hhl⟩ := reachable_scopeTrimmed hreach e he
  have hEndBadge : isEndBadge s e = true := (lastIdxWith_eq_some he).1
  have hStartBadge : isStartBadge s e = false := by
    rcases hb : isStartBadge s e with _ | _
    · rfl
    · rw [isEndBadge, hb] at hEndBadge
      simp at hEndBadge
  have hNotAfterE : isAfterEnd s e = false := by
    rw [isAfterEnd, he]
    simp
  have hLeg : isLegacyExecuted s e = false := by
    rw [isLegacyExecuted, hNotAfterE]
    simp only [Bool.not_false, Bool.true_and]
    rcases hmem : s.executionPath.contains ((e : Nat) : Int) with _ | _
    · simp
    · exfalso
      have hmem' : ((e : Nat) : Int) ∈ s.executionPath := by
        simpa using hmem
      have := hpath _ hmem'
      omega
  have hre : connectorRender s e =
      ⟨applyPathHighlightStyles (connectorStatusList s e) false,
        LineRender.noHighlight, LineRender.noHighlight⟩ := by
    rw [connectorRender]
    simp only [hStartBadge, hEndBadge, hLeg, Bool.false_eq_true, if_false, if_true,
      Bool.false_and]
  refine ⟨?_, ?_, ?_, ?_⟩
  · intro i hi
    have hAfter : isAfterEnd s i = true := by
      rw [isAfterEnd, he]
      simpa using hi
    have hstat : connectorStatusList s i = [] := by
      refine connectorStatusList_eq_nil ?_
      intro kv hkv j hj hji
      have := hhl kv hkv j hj
      rw [hji] at this
      omega
    have hLegi : isLegacyExecuted s i = false := by
      rw [isLegacyExecuted, hAfter]
      simp
    rw [connectorRender]
    rcases hsb : isStartBadge s i with _ | _ <;> rcases heb : isEndBadge s i with _ | _ <;>
      simp [hsb, heb, hstat, hLegi, hAfter, noRender, applyPathHighlightStyles, jsSetDedup]
  · rw [hre]
    exact apply_false_ne_executed _
  · rw [hre]
  · rw [hre]

/-- Witness for C7: default nodes, end point on update-case (end-bound
connector 2), legacy path request [0,1,2,3]: connector 3 renders nothing
and connector 2's line above is not executed. -/
theorem C7_end_bound_never_executed_witness :
    connectorRender (setExecutionPath [0, 1, 2, 3]
      (setTestEndPoint "update-case" (mkCanvas defaultNodes))) 3 = noRender
    ∧ (connectorRender (setExecutionPath [0, 1, 2, 3]
        (setTestEndPoint "update-case" (mkCanvas defaultNodes))) 2).lineAbove ≠
      LineRender.executed := by
  have h := C7_end_bound_never_executed
    (CanvasReachable.execPath [0, 1, 2, 3]
      (CanvasReachable.setEnd "update-case" CanvasReachable.init))
    (by decide : endConnIdx (setExecutionPath [0, 1, 2, 3]
      (setTestEndPoint "update-case" (mkCanvas defaultNodes))) = some 2)
  exact ⟨h.1 3 (by omega), h.2.1⟩


end FlowBuilder
